import Mathlib

/-!
Shallow embedding of the fluentpy card pipeline (src/models.py, src/config.py,
src/anki_export.py, src/cloze_export.py, src/session.py, src/review.py,
src/mnemonic_images.py) and proofs about it.

Modelling conventions:
* Python `str` is Lean `String`; `pathlib.Path` values are modelled as the
  path strings they print as, with `/` as the join separator.
* Python `str | None` fields are `Option String`; Python truthiness of such a
  field (`if x:`) is `optTruthy` (false for `None` and for the empty string).
* `str.lower()` and `re.IGNORECASE` are modelled with ASCII case folding
  (`Char.toLower`); the source's inputs are Spanish words whose non-ASCII
  letters Python would also fold, which this model treats as case-exact.
* File-system and network effects are modelled by oracles: a `String → Bool`
  existence predicate for `Path(...).exists()`, and a `GenOutcome` value for
  the result of a media-generation call (normal return vs raised exception).
-/

namespace Fluentpy

/-- Python truthiness of an optional string: `None` and `""` are falsy. -/
def optTruthy : Option String → Bool
  | none => false
  | some s => !(s == "")

/-- Model of Python `str.lower()` (charwise ASCII lowering). -/
def pyLower (s : String) : String := String.mk (s.data.map Char.toLower)

/-- Model of Python `str.replace(" ", "_")`: a single-character pattern
replacement is a charwise map. -/
def replaceSpaceWithUnderscore (s : String) : String :=
  String.mk (s.data.map (fun c => if c == ' ' then '_' else c))

/-- Model of Python `s[:8]` (first 8 code points). -/
def pyTake8 (s : String) : String := String.mk (s.data.take 8)

/-- Model of Python `sep.join(parts)`. -/
def joinSep (sep : String) : List String → String
  | [] => ""
  | [x] => x
  | x :: y :: xs => x ++ sep ++ joinSep sep (y :: xs)

/-- Helper for `pyTitle`: the boolean records whether the previous character
was alphabetic (Python: cased). -/
def pyTitleAux : Bool → List Char → List Char
  | _, [] => []
  | prevAlpha, c :: cs =>
    (if prevAlpha then c.toLower else c.toUpper) :: pyTitleAux c.isAlpha cs

/-- Model of Python `str.title()` (ASCII): the first letter of every
alphabetic run is uppercased, subsequent letters are lowercased. -/
def pyTitle (s : String) : String := String.mk (pyTitleAux false s.data)

/-! ## Data model (src/models.py) -/

/-- One entry of `example_sentences` (src/word_analysis.py, `ExampleSentence`). -/
structure ExampleSentence where
  sentence : String
  word_form : String
  ipa : String
  tense : Option String := none
deriving Repr, DecidableEq

/-- The `word_analysis` dict of a `ClozeCard` (src/models.py line 71).  The
program only ever reads the five keys of `WordAnalysis`
(src/word_analysis.py), so the dict is modelled as a partial record: an
outer `none` means the key is absent from the dict. -/
structure WordAnalysisDict where
  ipa : Option String := none
  part_of_speech : Option String := none
  gender : Option (Option String) := none
  verb_type : Option (Option String) := none
  example_sentences : Option (List ExampleSentence) := none
deriving Repr, DecidableEq

/-- src/models.py lines 29-63, `WordCard`.  The `guid` default
(`uuid.uuid4()`) is non-deterministic and is therefore a required field
here.  `has_mnemonic_image` is the attribute passed by
`create_session` (src/session.py line 91). -/
structure WordCard where
  word : String
  ipa : String
  part_of_speech : String
  gender : Option String := none
  verb_type : Option String := none
  personal_context : Option String := none
  extra_image_prompt : Option String := none
  image_path : Option String := none
  audio_path : Option String := none
  is_complete : Bool := false
  guid : String
  has_mnemonic_image : Bool := false
deriving Repr, DecidableEq

/-- src/models.py lines 46-48. -/
def WordCard.mark_complete (c : WordCard) : WordCard := { c with is_complete := true }

/-- src/models.py lines 50-53: first 8 characters of the GUID. -/
def WordCard.short_id (c : WordCard) : String := pyTake8 c.guid

/-- src/models.py lines 66-131, `ClozeCard`.  The fields after `guid`
(`selected_word_ipa`, `selected_tense`, `selected_subject`,
`show_base_verb`, `has_mnemonic_image`) are the attributes set by the
review flow (src/review.py lines 89-91, 308-310, 320) and by
`create_session` (src/session.py line 108) and read by the exporters. -/
structure ClozeCard where
  word : String
  word_analysis : WordAnalysisDict
  selected_sentence : Option String := none
  selected_word_form : Option String := none
  personal_context : Option String := none
  extra_prompt : Option String := none
  memory_aid : Option String := none
  image_path : Option String := none
  audio_path : Option String := none
  is_complete : Bool := false
  guid : String
  selected_word_ipa : Option String := none
  selected_tense : Option String := none
  selected_subject : Option String := none
  show_base_verb : Bool := false
  has_mnemonic_image : Bool := false
deriving Repr, DecidableEq

/-- src/models.py lines 83-85. -/
def ClozeCard.mark_complete (c : ClozeCard) : ClozeCard := { c with is_complete := true }

/-- src/models.py lines 87-90. -/
def ClozeCard.short_id (c : ClozeCard) : String := pyTake8 c.guid

/-- src/models.py lines 103-105: `word_analysis.get("ipa", "")`. -/
def ClozeCard.ipa (c : ClozeCard) : String := c.word_analysis.ipa.getD ""

/-- src/models.py lines 107-109: `word_analysis.get("part_of_speech", "")`. -/
def ClozeCard.part_of_speech (c : ClozeCard) : String :=
  c.word_analysis.part_of_speech.getD ""

/-- src/models.py lines 111-113: `word_analysis.get("gender")` (default `None`). -/
def ClozeCard.gender (c : ClozeCard) : Option String := c.word_analysis.gender.getD none

/-- src/models.py lines 115-117: `word_analysis.get("verb_type")` (default `None`). -/
def ClozeCard.verb_type (c : ClozeCard) : Option String :=
  c.word_analysis.verb_type.getD none

/-- src/models.py lines 119-121: `word_analysis.get("example_sentences", [])`. -/
def ClozeCard.example_sentences (c : ClozeCard) : List ExampleSentence :=
  c.word_analysis.example_sentences.getD []

/-- src/models.py lines 124-126: `definitions` is an alias for `memory_aid`. -/
def ClozeCard.definitions (c : ClozeCard) : Option String := c.memory_aid

/-- src/models.py lines 128-130: alias for `extra_prompt`. -/
def ClozeCard.extra_image_prompt (c : ClozeCard) : Option String := c.extra_prompt

/-- A value of the `Union[WordCard, ClozeCard]` type used throughout the
source; `isinstance` dispatch becomes a `match` on this sum. -/
inductive Card where
  | vocab (c : WordCard)
  | cloze (c : ClozeCard)
deriving Repr, DecidableEq

def Card.word : Card → String
  | Card.vocab c => c.word
  | Card.cloze c => c.word

def Card.guid : Card → String
  | Card.vocab c => c.guid
  | Card.cloze c => c.guid

def Card.short_id : Card → String
  | Card.vocab c => c.short_id
  | Card.cloze c => c.short_id

def Card.image_path : Card → Option String
  | Card.vocab c => c.image_path
  | Card.cloze c => c.image_path

def Card.audio_path : Card → Option String
  | Card.vocab c => c.audio_path
  | Card.cloze c => c.audio_path

def Card.is_complete : Card → Bool
  | Card.vocab c => c.is_complete
  | Card.cloze c => c.is_complete

def Card.personal_context : Card → Option String
  | Card.vocab c => c.personal_context
  | Card.cloze c => c.personal_context

def Card.ipa : Card → String
  | Card.vocab c => c.ipa
  | Card.cloze c => c.ipa

def Card.part_of_speech : Card → String
  | Card.vocab c => c.part_of_speech
  | Card.cloze c => c.part_of_speech

def Card.gender : Card → Option String
  | Card.vocab c => c.gender
  | Card.cloze c => c.gender

def Card.verb_type : Card → Option String
  | Card.vocab c => c.verb_type
  | Card.cloze c => c.verb_type

def Card.extra_image_prompt : Card → Option String
  | Card.vocab c => c.extra_image_prompt
  | Card.cloze c => c.extra_image_prompt

/-- The `card.selected_word_ipa` read guarded by `isinstance(card, ClozeCard)`
(src/anki_export.py line 60): a vocabulary card never has one. -/
def Card.selected_word_ipa : Card → Option String
  | Card.vocab _ => none
  | Card.cloze c => c.selected_word_ipa

def Card.mark_complete : Card → Card
  | Card.vocab c => Card.vocab c.mark_complete
  | Card.cloze c => Card.cloze c.mark_complete

def Card.withImagePath (p : String) : Card → Card
  | Card.vocab c => Card.vocab { c with image_path := some p }
  | Card.cloze c => Card.cloze { c with image_path := some p }

def Card.withAudioPath (p : String) : Card → Card
  | Card.vocab c => Card.vocab { c with audio_path := some p }
  | Card.cloze c => Card.cloze { c with audio_path := some p }

/-- Argument of `Session.add_card`: Python does not enforce the
`Union[WordCard, ClozeCard]` annotation, so the argument may also be a
value of any other type (`PyObj.other`). -/
inductive PyObj where
  | card (c : Card)
  | other
deriving Repr, DecidableEq

/-- src/models.py lines 153-191, `Session`. -/
structure Session where
  vocabulary_cards : List WordCard := []
  cloze_cards : List ClozeCard := []
  output_directory : String := "./output"
  anki_media_path : Option String := none
deriving Repr, DecidableEq

/-- src/models.py lines 162-165: all cards, vocabulary first then cloze. -/
def Session.cards (s : Session) : List Card :=
  s.vocabulary_cards.map Card.vocab ++ s.cloze_cards.map Card.cloze

/-- src/models.py lines 167-172: `isinstance` dispatch; any other value is
silently ignored. -/
def Session.add_card (s : Session) (x : PyObj) : Session :=
  match x with
  | PyObj.card (Card.vocab w) => { s with vocabulary_cards := s.vocabulary_cards ++ [w] }
  | PyObj.card (Card.cloze z) => { s with cloze_cards := s.cloze_cards ++ [z] }
  | PyObj.other => s

/-- src/models.py lines 174-177. -/
def Session.incomplete_cards (s : Session) : List Card :=
  s.cards.filter (fun c => !c.is_complete)

/-- src/models.py lines 179-182. -/
def Session.is_complete (s : Session) : Bool := s.cards.all Card.is_complete

/-- src/models.py lines 184-190: `<normalized word>-<short id><extension>`
under the session's output directory. -/
def Session.get_media_path (s : Session) (card : Card) (extension : String) : String :=
  let clean_word := replaceSpaceWithUnderscore (pyLower card.word)
  let filename := clean_word ++ "-" ++ card.short_id ++ extension
  s.output_directory ++ "/" ++ filename

/-! ## Configuration (src/config.py) -/

/-- src/config.py lines 69-79 (identical table at lines 135-145). -/
def SPANISH_PARTS_OF_SPEECH : List (String × String) :=
  [("noun", "Sustantivo"), ("verb", "Verbo"), ("adjective", "Adjetivo"),
   ("adverb", "Adverbio"), ("pronoun", "Pronombre"), ("preposition", "Preposición"),
   ("conjunction", "Conjunción"), ("article", "Artículo"),
   ("interjection", "Interjección")]

/-- src/config.py line 81 (identical table at line 147). -/
def SPANISH_GENDER : List (String × String) :=
  [("masculine", "masculino"), ("feminine", "femenino")]

/-- src/config.py lines 83-88 (identical table at lines 149-154). -/
def SPANISH_VERB_TYPES : List (String × String) :=
  [("transitive", "transitivo"), ("intransitive", "intransitivo"),
   ("reflexive", "reflexivo"), ("pronominal", "pronominal")]

/-- Python `dict.get(key, default)` on a literal table. -/
def tableGet (table : List (String × String)) (key : String) (dflt : String) : String :=
  match table.find? (fun p => p.1 == key) with
  | some p => p.2
  | none => dflt

/-- src/config.py lines 100-102 (and 168-170): unknown keys fall back to the
English value, title-cased. -/
def get_spanish_part_of_speech (pos : String) : String :=
  tableGet SPANISH_PARTS_OF_SPEECH pos (pyTitle pos)

/-- src/config.py lines 104-108 (and 172-176): falsy gender gives `""`;
unknown keys fall back verbatim. -/
def get_spanish_gender (gender : Option String) : String :=
  if !optTruthy gender then "" else tableGet SPANISH_GENDER (gender.getD "") (gender.getD "")

/-- src/config.py lines 110-114 (and 178-182). -/
def get_spanish_verb_type (verb_type : Option String) : String :=
  if !optTruthy verb_type then "" else
    tableGet SPANISH_VERB_TYPES (verb_type.getD "") (verb_type.getD "")

/-- src/config.py lines 51-98, `AnkiConfig` (vocabulary export).  The class
constants `NOTE_TYPE` and `FIELD_NAMES` are below; `anki_media_path`
auto-discovery is a file-system effect and the field holds its result. -/
structure AnkiConfig where
  deck_name : String := "Fluent Forever Spanish::2. Everything Else"
  anki_media_path : Option String := none
  test_spelling : Bool := false
deriving Repr, DecidableEq

/-- src/config.py line 55. -/
def AnkiConfig.NOTE_TYPE : String := "2. Picture Words"

/-- src/config.py lines 59-66. -/
def AnkiConfig.FIELD_NAMES : List String :=
  ["Word", "Picture", "Gender, Personal Connection, Extra Info (Back side)",
   "Pronunciation (Recording and/or IPA)", "Test Spelling? (y = yes, blank = no)",
   "guid"]

/-- src/config.py lines 117-166, `ClozeAnkiConfig` (cloze export). -/
structure ClozeAnkiConfig where
  deck_name : String := "Fluent Forever Spanish::2. Everything Else"
  anki_media_path : Option String := none
  guid_column : Nat := 6
deriving Repr, DecidableEq

/-- src/config.py line 121. -/
def ClozeAnkiConfig.NOTE_TYPE : String := "3. All-Purpose Card"

/-- src/config.py lines 125-132. -/
def ClozeAnkiConfig.FIELD_NAMES : List String :=
  ["Front (Example with word blanked out or missing)", "Front (Picture)",
   "Front (Definitions, base word, etc.)", "Back (a single word/phrase, no context)",
   "- The full sentence (no words blanked out)",
   "- Extra Info (Pronunciation, personal connections, conjugations, etc)"]

/-- src/mnemonic_images.py lines 8-11. -/
def get_mnemonic_filename (word : String) : String :=
  "mpi-" ++ replaceSpaceWithUnderscore (pyLower word) ++ ".jpg"

/-! ## Vocabulary export (src/anki_export.py) -/

/-- src/anki_export.py line 47: the image filename interpolated into the
`<img>` tag of a vocabulary CSV row. -/
def csvRowImageFilename (card : Card) : String :=
  replaceSpaceWithUnderscore (pyLower card.word) ++ "-" ++ card.short_id ++ ".jpg"

/-- src/anki_export.py line 56: the audio filename inside `[sound:...]`. -/
def csvRowAudioFilename (card : Card) : String :=
  replaceSpaceWithUnderscore (pyLower card.word) ++ "-" ++ card.short_id ++ ".mp3"

/-- src/anki_export.py lines 96-98: image filename used by `copy_media_files`. -/
def copyMediaImageFilename (card : WordCard) : String :=
  replaceSpaceWithUnderscore (pyLower card.word) ++ "-" ++ card.short_id ++ ".jpg"

/-- src/anki_export.py lines 111-113: audio filename used by `copy_media_files`. -/
def copyMediaAudioFilename (card : WordCard) : String :=
  replaceSpaceWithUnderscore (pyLower card.word) ++ "-" ++ card.short_id ++ ".mp3"

/-- src/cloze_export.py lines 143-145: image filename used by
`copy_cloze_media_files`. -/
def copyClozeImageFilename (card : ClozeCard) : String :=
  replaceSpaceWithUnderscore (pyLower card.word) ++ "-" ++ card.short_id ++ ".jpg"

/-- src/cloze_export.py lines 160-162: audio filename used by
`copy_cloze_media_files`. -/
def copyClozeAudioFilename (card : ClozeCard) : String :=
  replaceSpaceWithUnderscore (pyLower card.word) ++ "-" ++ card.short_id ++ ".mp3"

/-- src/anki_export.py lines 12-36: field 3 (gender, personal connection,
extra info).  The config argument is the source's `config`; the translation
tables are class constants shared by both config classes. -/
def create_field_3_content (card : Card) : String :=
  let spanish_pos := get_spanish_part_of_speech card.part_of_speech
  let parts : List String :=
    if card.part_of_speech == "noun" && optTruthy card.gender then
      [spanish_pos ++ " " ++ get_spanish_gender card.gender]
    else if card.part_of_speech == "verb" && optTruthy card.verb_type then
      [spanish_pos ++ " " ++ get_spanish_verb_type card.verb_type]
    else
      [spanish_pos]
  let parts :=
    if optTruthy card.personal_context then parts ++ [card.personal_context.getD ""]
    else parts
  if !parts.isEmpty then joinSep ". " parts ++ "." else ""

/-- src/anki_export.py lines 39-72: the six fields of a vocabulary CSV row. -/
def create_csv_row (card : Card) (config : AnkiConfig) : List String :=
  let word := card.word
  let picture :=
    if optTruthy card.image_path then
      "<img src=\"" ++ csvRowImageFilename card ++ "\">"
    else ""
  let field_3 := create_field_3_content card
  let pronunciation_parts : List String :=
    (if optTruthy card.audio_path then
       ["[sound:" ++ csvRowAudioFilename card ++ "]"]
     else []) ++
    (if optTruthy card.selected_word_ipa then [card.selected_word_ipa.getD ""]
     else if !(card.ipa == "") then [card.ipa]
     else [])
  let pronunciation := joinSep " " pronunciation_parts
  let test_spelling := if config.test_spelling then "y" else ""
  let guid := card.guid
  [word, picture, field_3, pronunciation, test_spelling, guid]

/-! ## Cloze sentence blanking (src/cloze_export.py lines 13-28)

The source compiles the regex `\b<escaped word>\b` with `re.IGNORECASE` and
substitutes every match by six underscores.  The embedding below is the
regex engine's left-to-right scan specialised to this pattern: at each
position it tries a case-insensitive literal match of the word flanked by
word boundaries, replaces on success and moves past the match, otherwise
copies one character.  `\w` is modelled for the repertoire this program
feeds it: ASCII alphanumerics, underscore and the Spanish letters. -/

/-- The Spanish letters that Python's Unicode `\w` classifies as word
characters and ASCII `Char.isAlphanum` does not. -/
def spanishLetters : List Char :=
  ['á', 'é', 'í', 'ó', 'ú', 'ü', 'ñ', 'Á', 'É', 'Í', 'Ó', 'Ú', 'Ü', 'Ñ']

/-- Model of the regex word-character class `\w`. -/
def isWordChar (c : Char) : Bool :=
  c.isAlphanum || c == '_' || spanishLetters.contains c

/-- Case-insensitive character comparison (ASCII folding), modelling
`re.IGNORECASE` on the program's character repertoire. -/
def ciCharEq (c t : Char) : Bool := c.toLower == t.toLower

/-- Case-insensitive literal match of `target` at the head of the input:
returns the consumed characters and the rest on success. -/
def matchCI : List Char → List Char → Option (List Char × List Char)
  | [], input => some ([], input)
  | _ :: _, [] => none
  | t :: ts, c :: cs =>
    if ciCharEq c t then
      match matchCI ts cs with
      | some p => some (c :: p.1, p.2)
      | none => none
    else none

/-- Word-character status of an optional character (`none` = string edge). -/
def optWord : Option Char → Bool
  | some c => isWordChar c
  | none => false

/-- The regex `\b`: a boundary lies between two positions of different
word-character status. -/
def isBoundary (l r : Option Char) : Bool := optWord l != optWord r

/-- The replacement text: exactly six underscores. -/
def uscores : List Char := ['_', '_', '_', '_', '_', '_']

/-- The scan of `re.sub` for the pattern `\b<target>\b` with a non-empty
target `t :: ts`.  `prev` is the character before the current position and
`fuel` bounds the recursion (any `fuel ≥ input.length` gives the fixpoint,
since every step consumes at least one input character). -/
def reSubAux (t : Char) (ts : List Char) : Nat → Option Char → List Char → List Char
  | 0, _, input => input
  | _ + 1, _, [] => []
  | fuel + 1, prev, c :: cs =>
    match matchCI (t :: ts) (c :: cs) with
    | some p =>
      if isBoundary prev (some c) && isBoundary p.1.getLast? p.2.head? then
        uscores ++ reSubAux t ts fuel p.1.getLast? p.2
      else c :: reSubAux t ts fuel (some c) cs
    | none => c :: reSubAux t ts fuel (some c) cs

/-- src/cloze_export.py lines 13-28: replace every whole-word,
case-insensitive occurrence of `target_word` in `sentence` by six
underscores.  (For the empty target the source's regex degenerates to
`\b\b`; the exporter never passes one because of its truthiness guard, and
this model leaves the sentence unchanged in that case.) -/
def blank_word_in_sentence (sentence target_word : String) : String :=
  match target_word.data with
  | [] => sentence
  | t :: ts => String.mk (reSubAux t ts sentence.data.length none sentence.data)

/-! ## Cloze export rows (src/cloze_export.py lines 31-116) -/

/-- src/cloze_export.py line 44: image filename in the cloze row. -/
def clozeRowImageFilename (card : ClozeCard) : String :=
  replaceSpaceWithUnderscore (pyLower card.word) ++ "-" ++ card.short_id ++ ".jpg"

/-- src/cloze_export.py line 83: audio filename in the cloze row. -/
def clozeRowAudioFilename (card : ClozeCard) : String :=
  replaceSpaceWithUnderscore (pyLower card.word) ++ "-" ++ card.short_id ++ ".mp3"

/-- src/cloze_export.py lines 31-116: the ten fields of a cloze CSV row. -/
def create_cloze_csv_row (card : ClozeCard) : List String :=
  let front_example :=
    if optTruthy card.selected_sentence && optTruthy card.selected_word_form then
      blank_word_in_sentence (card.selected_sentence.getD "") (card.selected_word_form.getD "")
    else ""
  let front_picture :=
    if optTruthy card.image_path then
      "<img src=\"" ++ clozeRowImageFilename card ++ "\">"
    else ""
  let user_definitions : List String :=
    if optTruthy card.definitions then [card.definitions.getD ""] else []
  let verb_info_parts : List String :=
    (if optTruthy card.verb_type then
       [if card.show_base_verb then
          card.verb_type.getD "" ++ " (" ++ card.word ++ ")"
        else card.verb_type.getD ""]
     else []) ++
    (if optTruthy card.selected_subject then [card.selected_subject.getD ""] else []) ++
    (if optTruthy card.selected_tense then [card.selected_tense.getD ""] else [])
  let front_definitions_parts :=
    user_definitions ++
    (if !verb_info_parts.isEmpty then [joinSep ", " verb_info_parts] else [])
  let front_definitions := joinSep " - " front_definitions_parts
  let back_word := card.word
  let full_sentence := card.selected_sentence.getD ""
  let extra_info_parts : List String :=
    (if optTruthy card.audio_path then
       ["[sound:" ++ clozeRowAudioFilename card ++ "]"]
     else []) ++
    (if optTruthy card.selected_word_ipa then [card.selected_word_ipa.getD ""]
     else if !(card.ipa == "") then [card.ipa]
     else []) ++
    (if optTruthy card.personal_context then [card.personal_context.getD ""] else [])
  let extra_info := joinSep " " extra_info_parts
  let mnemonic_image :=
    if card.has_mnemonic_image then
      "<img src=\"" ++ get_mnemonic_filename card.word ++ "\">"
    else ""
  [front_example, front_picture, front_definitions, back_word, full_sentence,
   extra_info, "", "", "", mnemonic_image]

/-! ## CSV file generation (src/anki_export.py lines 127-173,
src/cloze_export.py lines 178-224)

The file system is modelled by the return value: the second component is
the content written to `output_path`, or `none` when no file is written. -/

/-- Python `csv.writer` minimal quoting for one tab-separated field. -/
def csvQuoteMinimal (field : String) : String :=
  if field.data.any (fun c => c == '\t' || c == '\n' || c == '\r' || c == '"') then
    "\"" ++ String.mk ((field.data.map (fun c => if c == '"' then ['"', '"'] else [c])).flatten) ++ "\""
  else field

/-- One data row as written by `csv.writer` (tab-delimited, CRLF-terminated). -/
def csvWriteRow (fields : List String) : String :=
  joinSep "\t" (fields.map csvQuoteMinimal) ++ "\r\n"

/-- src/anki_export.py lines 141-159: header block then one row per
complete vocabulary card. -/
def vocabCsvContent (session : Session) (config : AnkiConfig) : String :=
  "#notetype:" ++ AnkiConfig.NOTE_TYPE ++ "\n" ++
  "#deck:" ++ config.deck_name ++ "\n" ++
  "#separator:tab\n" ++
  "#html:true\n" ++
  "#guid column:6\n" ++
  "#fields:" ++ joinSep "\t" AnkiConfig.FIELD_NAMES ++ "\n" ++
  String.join ((session.vocabulary_cards.filter (fun c => c.is_complete)).map
    (fun c => csvWriteRow (create_csv_row (Card.vocab c) config)))

/-- src/anki_export.py lines 127-173, `generate_csv`: aborts with no file
when any vocabulary card is incomplete, else writes the CSV and succeeds. -/
def generate_csv (session : Session) (config : AnkiConfig) : Bool × Option String :=
  let incomplete_vocab_cards := session.vocabulary_cards.filter (fun c => !c.is_complete)
  if !incomplete_vocab_cards.isEmpty then (false, none)
  else (true, some (vocabCsvContent session config))

/-- src/cloze_export.py lines 197-215: header block (no guid column line)
then one row per complete cloze card. -/
def clozeCsvContent (session : Session) (config : ClozeAnkiConfig) : String :=
  "#notetype:" ++ ClozeAnkiConfig.NOTE_TYPE ++ "\n" ++
  "#deck:" ++ config.deck_name ++ "\n" ++
  "#separator:tab\n" ++
  "#html:true\n" ++
  "#fields:" ++ joinSep "\t" ClozeAnkiConfig.FIELD_NAMES ++ "\n" ++
  String.join ((session.cloze_cards.filter (fun c => c.is_complete)).map
    (fun c => csvWriteRow (create_cloze_csv_row c)))

/-- src/cloze_export.py lines 178-224, `generate_cloze_csv`: aborts with no
file when any cloze card is incomplete; an empty cloze list succeeds
without writing; otherwise writes the CSV and succeeds. -/
def generate_cloze_csv (session : Session) (config : ClozeAnkiConfig) : Bool × Option String :=
  let incomplete_cloze_cards := session.cloze_cards.filter (fun c => !c.is_complete)
  if !incomplete_cloze_cards.isEmpty then (false, none)
  else if session.cloze_cards.isEmpty then (true, none)
  else (true, some (clozeCsvContent session config))

/-! ## Review approval (src/review.py lines 276-300)

The approve branch of `review_card`.  `fileExists` is the file-system
oracle for `Path(...).exists()`.  The result is the (possibly updated)
card and whether the approval was accepted (i.e. the loop exits). -/

/-- src/review.py line 286: `not card.image_path or not Path(card.image_path).exists()`. -/
def approveMissingImage (fileExists : String → Bool) (card : Card) : Bool :=
  !optTruthy card.image_path || !fileExists (card.image_path.getD "")

/-- src/review.py line 288: the audio analogue. -/
def approveMissingAudio (fileExists : String → Bool) (card : Card) : Bool :=
  !optTruthy card.audio_path || !fileExists (card.audio_path.getD "")

/-- src/review.py lines 278-282: `isinstance(card, ClozeCard) and not
card.selected_sentence` — the rejection guard for cloze cards without a
selected sentence. -/
def approveClozeGuard : Card → Bool
  | Card.cloze z => !optTruthy z.selected_sentence
  | Card.vocab _ => false

/-- src/review.py lines 276-300: the approve action.  A cloze card without
a selected sentence is rejected; a card with missing media is rejected;
otherwise `mark_complete` runs and the loop exits. -/
def attemptApprove (fileExists : String → Bool) (card : Card) : Card × Bool :=
  if approveClozeGuard card then
    (card, false)
  else
    let missing_media : List String :=
      (if approveMissingImage fileExists card then ["image"] else []) ++
      (if approveMissingAudio fileExists card then ["audio"] else [])
    if !missing_media.isEmpty then (card, false)
    else (card.mark_complete, true)

/-! ## Media regeneration (src/session.py lines 124-314)

The external generation call is modelled by a `GenOutcome`: either the call
returned a value (`ok result`, where an empty string models a falsy
return) or it raised an exception (`raised`). -/

/-- Outcome of one external media-generation call. -/
inductive GenOutcome where
  | ok (result_path : String)
  | raised
deriving Repr, DecidableEq

/-- src/session.py line 139: destination of the original image generation. -/
def generateMediaImagePath (session : Session) (card : Card) : String :=
  session.get_media_path card ".jpg"

/-- src/session.py line 140: destination of the original audio generation. -/
def generateMediaAudioPath (session : Session) (card : Card) : String :=
  session.get_media_path card ".mp3"

/-- src/session.py line 228: destination recomputed by `regenerate_image`. -/
def regenerateImageTargetPath (session : Session) (card : Card) : String :=
  session.get_media_path card ".jpg"

/-- src/session.py line 287: destination recomputed by `regenerate_audio`. -/
def regenerateAudioTargetPath (session : Session) (card : Card) : String :=
  session.get_media_path card ".mp3"

/-- src/session.py lines 239-245: the prior extra prompt and the new
additional context are joined with a period and a space when both are
truthy. -/
def combined_extra_prompt (card : Card) (additional_prompt : Option String) : Option String :=
  let combined := card.extra_image_prompt
  if optTruthy additional_prompt then
    if optTruthy combined then
      some (combined.getD "" ++ ". " ++ additional_prompt.getD "")
    else additional_prompt
  else combined

/-- src/session.py lines 217-277, `regenerate_image`: on a truthy result
the card's `image_path` is set to the recomputed target path and the call
succeeds; on an exception (or falsy result) the card is unchanged and the
call fails. -/
def regenerate_image (session : Session) (card : Card)
    (outcome : GenOutcome) : Card × Bool :=
  let image_path := regenerateImageTargetPath session card
  match outcome with
  | GenOutcome.raised => (card, false)
  | GenOutcome.ok result_path =>
    if !(result_path == "") then (card.withImagePath image_path, true)
    else (card, false)

/-- src/session.py lines 280-314, `regenerate_audio`: on a truthy result
the card's `audio_path` is set to `Path(result_path)` and the call
succeeds; on an exception (or falsy result, in particular the `None` that
`generate_audio` returns on failure) the card is unchanged and the call
fails. -/
def regenerate_audio (_session : Session) (card : Card)
    (outcome : GenOutcome) : Card × Bool :=
  match outcome with
  | GenOutcome.raised => (card, false)
  | GenOutcome.ok result_path =>
    if !(result_path == "") then (card.withAudioPath result_path, true)
    else (card, false)

/-! ## Specification-side restatement of blanking

`specBlank` follows the words of the specification: split the sentence into
maximal runs of word characters, replace every run that equals the selected
word-form case-insensitively by exactly six underscores, and leave every
other character unchanged.  It is compared with the source-side
`blank_word_in_sentence` in the theorems below. -/

/-- Case-insensitive equality of two character lists. -/
def ciStrEq : List Char → List Char → Bool
  | [], [] => true
  | a :: l1, b :: l2 => ciCharEq a b && ciStrEq l1 l2
  | _, _ => false

/-- Token-based blanking: each maximal word-character run that matches the
target case-insensitively becomes six underscores.  `fuel` bounds the
recursion; any `fuel ≥ input.length` gives the fixpoint. -/
def specBlankAux (tgt : List Char) : Nat → List Char → List Char
  | 0, input => input
  | _ + 1, [] => []
  | fuel + 1, c :: cs =>
    if isWordChar c then
      (if ciStrEq (List.takeWhile isWordChar (c :: cs)) tgt then uscores
       else List.takeWhile isWordChar (c :: cs)) ++
      specBlankAux tgt fuel (List.dropWhile isWordChar (c :: cs))
    else c :: specBlankAux tgt fuel cs

/-- Modelled from the spec: whole-word case-insensitive replacement of the
target by six underscores, all other characters unchanged. -/
def specBlank (sentence target : String) : String :=
  String.mk (specBlankAux target.data sentence.data.length sentence.data)

/-! ## Concrete inputs used by the scenario witnesses -/

/-- A fixed GUID (its first 8 characters are `123e4567`). -/
def demoGuid : String := "123e4567-e89b-12d3-a456-426614174000"

/-- The vocabulary card of the spec's field-3 scenario. -/
def casaCard : WordCard :=
  { word := "casa", ipa := "ˈka.sa", part_of_speech := "noun",
    gender := some "feminine", personal_context := some "Mi hogar de la infancia",
    guid := demoGuid }

/-- The cloze card of the spec's blanking scenario. -/
def casaClozeCard : ClozeCard :=
  { word := "casa", word_analysis := {},
    selected_sentence := some "La casa es muy grande.",
    selected_word_form := some "casa", guid := demoGuid }

/-- A vocabulary card whose part of speech is the empty string (absent from
the translation table, with an empty title-cased fallback). -/
def emptyPosCard : WordCard :=
  { word := "x", ipa := "", part_of_speech := "", guid := "g" }

/-- Session of the export scenario: one incomplete vocabulary card and zero
cloze cards. -/
def demoIncompleteSession : Session := { vocabulary_cards := [casaCard] }

/-- The same session with its single vocabulary card approved. -/
def demoCompleteSession : Session :=
  { vocabulary_cards := [casaCard.mark_complete] }

/-- A cloze card whose `word_analysis` dict is empty. -/
def emptyDictClozeCard : ClozeCard :=
  { word := "ir", word_analysis := {}, guid := "g2" }

/-- A cloze card with a selected sentence and both media paths set, used to
exercise the approve action. -/
def demoApproveCard : ClozeCard :=
  { word := "perro", word_analysis := {}, selected_sentence := some "El perro come.",
    selected_word_form := some "perro", image_path := some "i.jpg",
    audio_path := some "a.mp3", guid := "g3" }

/-- A vocabulary card with a prior extra image prompt, used to exercise
regeneration. -/
def promptCard : WordCard :=
  { word := "sol", ipa := "sol", part_of_speech := "noun",
    extra_image_prompt := some "orig", guid := "g4" }

/-! ## Character-class lemmas -/

theorem isUpper_toNat (c : Char) :
    c.isUpper = (decide (65 ≤ c.toNat) && decide (c.toNat ≤ 90)) := by
  simp [Char.isUpper, Char.toNat, UInt32.le_def, BitVec.le_def]
  rfl

theorem char_shift_isLower (n : Nat) (h1 : 65 ≤ n) (h2 : n ≤ 90) :
    (Char.ofNat (n + 32)).isLower = true := by
  interval_cases n <;> decide

theorem toLower_eq_self {c : Char} (h : ¬(65 ≤ c.toNat ∧ c.toNat ≤ 90)) :
    c.toLower = c := by
  simp [Char.toLower, h]

/-- A character that compares case-insensitively equal to a word character
is itself a word character. -/
theorem wordChar_of_ciCharEq {c t : Char} (ht : isWordChar t = true)
    (h : ciCharEq c t = true) : isWordChar c = true := by
  have h1 : c.toLower = t.toLower := by simpa [ciCharEq] using h
  by_cases hc : 65 ≤ c.toNat ∧ c.toNat ≤ 90
  · have hu : c.isUpper = true := by
      rw [isUpper_toNat]
      simp [hc.1, hc.2]
    simp [isWordChar, Char.isAlphanum, Char.isAlpha, hu]
  · have hcl : c.toLower = c := toLower_eq_self hc
    rw [hcl] at h1
    by_cases htc : 65 ≤ t.toNat ∧ t.toNat ≤ 90
    · have hts : t.toLower = Char.ofNat (t.toNat + 32) := by
        simp [Char.toLower, htc]
      rw [hts] at h1
      have hl : (Char.ofNat (t.toNat + 32)).isLower = true :=
        char_shift_isLower _ htc.1 htc.2
      rw [h1]
      simp [isWordChar, Char.isAlphanum, Char.isAlpha, hl]
    · have hts : t.toLower = t := toLower_eq_self htc
      rw [hts] at h1
      rw [h1]
      exact ht

/-! ## Lemmas about the literal matcher -/

theorem matchCI_sound {tgt : List Char} :
    ∀ {input con rest : List Char}, matchCI tgt input = some (con, rest) →
      input = con ++ rest ∧ ciStrEq con tgt = true := by
  induction tgt with
  | nil =>
    intro input con rest h
    simp [matchCI] at h
    obtain ⟨h1, h2⟩ := h
    subst h1; subst h2
    simp [ciStrEq]
  | cons t ts ih =>
    intro input con rest h
    cases input with
    | nil => simp [matchCI] at h
    | cons c cs =>
      simp only [matchCI] at h
      by_cases hc : ciCharEq c t
      · rw [if_pos hc] at h
        cases hm : matchCI ts cs with
        | none => rw [hm] at h; simp at h
        | some p =>
          rw [hm] at h
          simp at h
          obtain ⟨h1, h2⟩ := h
          obtain ⟨hi, hs⟩ := ih hm
          subst h1; subst h2
          constructor
          · simp [hi]
          · simp [ciStrEq, hc, hs]
      · rw [if_neg hc] at h
        simp at h

theorem matchCI_complete {tgt : List Char} :
    ∀ {con : List Char}, ciStrEq con tgt = true →
      ∀ rest : List Char, matchCI tgt (con ++ rest) = some (con, rest) := by
  induction tgt with
  | nil =>
    intro con h rest
    cases con with
    | nil => simp [matchCI]
    | cons a l => simp [ciStrEq] at h
  | cons t ts ih =>
    intro con h rest
    cases con with
    | nil => simp [ciStrEq] at h
    | cons a l =>
      simp only [ciStrEq, Bool.and_eq_true] at h
      have hrec := ih h.2 rest
      simp [List.cons_append, matchCI, if_pos h.1, hrec]

theorem all_word_of_ciStrEq {con tgt : List Char} (h : ciStrEq con tgt = true)
    (hw : ∀ c ∈ tgt, isWordChar c = true) : ∀ c ∈ con, isWordChar c = true := by
  induction con generalizing tgt with
  | nil => simp
  | cons a l ih =>
    cases tgt with
    | nil => simp [ciStrEq] at h
    | cons b m =>
      simp only [ciStrEq, Bool.and_eq_true] at h
      intro c hc
      rcases List.mem_cons.mp hc with rfl | hc2
      · exact wordChar_of_ciCharEq (hw b (by simp)) h.1
      · exact ih h.2 (fun x hx => hw x (by simp [hx])) c hc2

/-! ## Run-splitting lemmas -/

theorem takeWhile_all_append {p : Char → Bool} {l1 l2 : List Char}
    (h1 : ∀ c ∈ l1, p c = true) (h2 : ∀ c ∈ l2.head?, p c = false) :
    (l1 ++ l2).takeWhile p = l1 ∧ (l1 ++ l2).dropWhile p = l2 := by
  induction l1 with
  | nil =>
    cases l2 with
    | nil => simp
    | cons a m =>
      have ha : p a = false := h2 a (by simp)
      simp [List.takeWhile_cons, List.dropWhile_cons, ha]
  | cons a l ih =>
    have ha : p a = true := h1 a (by simp)
    have hrec := ih (fun c hc => h1 c (by simp [hc]))
    simp [List.takeWhile_cons, List.dropWhile_cons, ha, hrec.1, hrec.2]

theorem dropWhile_head_false {p : Char → Bool} (l : List Char) :
    ∀ c ∈ (l.dropWhile p).head?, p c = false := by
  induction l with
  | nil => simp
  | cons a m ih =>
    by_cases hp : p a
    · simpa [List.dropWhile_cons, hp] using ih
    · intro c hc
      simp [List.dropWhile_cons, hp] at hc
      subst hc
      simpa using hp

theorem mem_takeWhile_pred {p : Char → Bool} {l : List Char} :
    ∀ c ∈ l.takeWhile p, p c = true := by
  induction l with
  | nil => simp
  | cons a m ih =>
    by_cases hp : p a
    · intro c hc
      rw [List.takeWhile_cons_of_pos hp] at hc
      rcases List.mem_cons.mp hc with rfl | hc2
      · exact hp
      · exact ih c hc2
    · intro c hc
      rw [List.takeWhile_cons_of_neg hp] at hc
      simp at hc

theorem dropWhile_length_le_self {p : Char → Bool} (l : List Char) :
    (l.dropWhile p).length ≤ l.length := by
  induction l with
  | nil => simp
  | cons a m ih =>
    by_cases hp : p a
    · rw [List.dropWhile_cons_of_pos hp]
      exact le_trans ih (by simp)
    · rw [List.dropWhile_cons_of_neg hp]

theorem optWord_some (c : Char) : optWord (some c) = isWordChar c := rfl

theorem optWord_none : optWord none = false := rfl

theorem isBoundary_eq (l r : Option Char) :
    isBoundary l r = (optWord l != optWord r) := rfl

/-! ## Unfolding equations for the two blanking scans -/

theorem reSubAux_nil (tc : Char) (ts : List Char) (f : Nat) (prev : Option Char) :
    reSubAux tc ts f prev [] = [] := by
  cases f <;> rfl

theorem specBlankAux_nil (tgt : List Char) (f : Nat) :
    specBlankAux tgt f [] = [] := by
  cases f <;> rfl

theorem reSubAux_cons (tc : Char) (ts : List Char) (fuel : Nat) (prev : Option Char)
    (c : Char) (cs : List Char) :
    reSubAux tc ts (fuel + 1) prev (c :: cs) =
      match matchCI (tc :: ts) (c :: cs) with
      | some p =>
        if isBoundary prev (some c) && isBoundary p.1.getLast? p.2.head? then
          uscores ++ reSubAux tc ts fuel p.1.getLast? p.2
        else c :: reSubAux tc ts fuel (some c) cs
      | none => c :: reSubAux tc ts fuel (some c) cs := rfl

theorem specBlankAux_cons (tgt : List Char) (fuel : Nat) (c : Char) (cs : List Char) :
    specBlankAux tgt (fuel + 1) (c :: cs) =
      if isWordChar c then
        (if ciStrEq ((c :: cs).takeWhile isWordChar) tgt then uscores
         else (c :: cs).takeWhile isWordChar) ++
        specBlankAux tgt fuel ((c :: cs).dropWhile isWordChar)
      else c :: specBlankAux tgt fuel cs := rfl

/-! ## The regex scan coincides with the token-based specification

The induction tracks two situations: (a) the scan stands at a position
whose previous character is not a word character (a potential match start);
(b) the scan stands inside a word-character run `r` that cannot contain a
match start, followed by input `rest` whose head is not a word character. -/

theorem blank_main (tc : Char) (ts : List Char)
    (hw : ∀ c ∈ tc :: ts, isWordChar c = true) :
    ∀ n : Nat, ∀ input : List Char, input.length ≤ n →
      ((∀ prev, optWord prev = false → ∀ f1 f2, input.length ≤ f1 → input.length ≤ f2 →
          reSubAux tc ts f1 prev input = specBlankAux (tc :: ts) f2 input) ∧
       (∀ prev r rest, optWord prev = true → input = r ++ rest →
          (∀ c ∈ r, isWordChar c = true) → (∀ c ∈ rest.head?, isWordChar c = false) →
          ∀ f1 f2, input.length ≤ f1 → rest.length ≤ f2 →
          reSubAux tc ts f1 prev input = r ++ specBlankAux (tc :: ts) f2 rest)) := by
  intro n
  induction n with
  | zero =>
    intro input hlen
    have hnil : input = [] := List.eq_nil_of_length_eq_zero (Nat.le_zero.mp hlen)
    subst hnil
    constructor
    · intro prev _ f1 f2 _ _
      rw [reSubAux_nil, specBlankAux_nil]
    · intro prev r rest _ heq hr hrest f1 f2 _ _
      have hr0 : r = [] := by
        cases r with
        | nil => rfl
        | cons a l => simp at heq
      subst hr0
      have hrest0 : rest = [] := by simpa using heq.symm
      subst hrest0
      rw [reSubAux_nil, specBlankAux_nil]
      rfl
  | succ n ih =>
    intro input hlen
    constructor
    · -- part (a): previous character is not a word character
      intro prev hprev f1 f2 hf1 hf2
      cases input with
      | nil => rw [reSubAux_nil, specBlankAux_nil]
      | cons c cs =>
        simp only [List.length_cons] at hf1 hf2 hlen
        obtain ⟨g1, rfl⟩ : ∃ k, f1 = k + 1 := ⟨f1 - 1, by omega⟩
        obtain ⟨g2, rfl⟩ : ∃ k, f2 = k + 1 := ⟨f2 - 1, by omega⟩
        by_cases hPc : isWordChar c = true
        · -- a word-character run starts here
          have hbl : isBoundary prev (some c) = true := by
            rw [isBoundary_eq, optWord_some, hprev, hPc]
            rfl
          have tail_step :
              ciStrEq ((c :: cs).takeWhile isWordChar) (tc :: ts) = false →
              c :: reSubAux tc ts g1 (some c) cs =
                specBlankAux (tc :: ts) (g2 + 1) (c :: cs) := by
            intro hrun
            rw [specBlankAux_cons, if_pos hPc, if_neg (by simp [hrun]),
              List.takeWhile_cons_of_pos hPc, List.dropWhile_cons_of_pos hPc,
              List.cons_append]
            congr 1
            exact (ih cs (by omega)).2 (some c) (cs.takeWhile isWordChar)
              (cs.dropWhile isWordChar) (by rw [optWord_some]; exact hPc)
              (List.takeWhile_append_dropWhile isWordChar cs).symm mem_takeWhile_pred
              (dropWhile_head_false cs) g1 g2 (by omega)
              (by have := dropWhile_length_le_self (p := isWordChar) cs; omega)
          cases hm : matchCI (tc :: ts) (c :: cs) with
          | none =>
            have hrun : ciStrEq ((c :: cs).takeWhile isWordChar) (tc :: ts) = false := by
              cases hEq : ciStrEq ((c :: cs).takeWhile isWordChar) (tc :: ts) with
              | false => rfl
              | true =>
                exfalso
                have hm2 := matchCI_complete hEq ((c :: cs).dropWhile isWordChar)
                rw [List.takeWhile_append_dropWhile, hm] at hm2
                exact Option.noConfusion hm2
            simp only [reSubAux_cons, hm]
            exact tail_step hrun
          | some p =>
            obtain ⟨con, rest2⟩ := p
            have hs := matchCI_sound hm
            have hconW : ∀ x ∈ con, isWordChar x = true :=
              all_word_of_ciStrEq hs.2 hw
            have hconne : con ≠ [] := by
              intro h0
              rw [h0] at hs
              simpa [ciStrEq] using hs.2
            have hlast : con.getLast? = some (con.getLast hconne) :=
              List.getLast?_eq_getLast con hconne
            have hlastW : isWordChar (con.getLast hconne) = true :=
              hconW _ (List.getLast_mem hconne)
            have hbr : isBoundary con.getLast? rest2.head? = !(optWord rest2.head?) := by
              rw [hlast, isBoundary_eq, optWord_some, hlastW]
              cases optWord rest2.head? <;> rfl
            have hlen_eq : cs.length + 1 = con.length + rest2.length := by
              have := congrArg List.length hs.1
              simpa using this
            have hconpos : 1 ≤ con.length := by
              cases con with
              | nil => exact absurd rfl hconne
              | cons a l => simp
            by_cases hrw : optWord rest2.head? = true
            · -- right boundary fails: the run extends past the match
              have hcond : (isBoundary prev (some c) &&
                  isBoundary con.getLast? rest2.head?) = false := by
                rw [hbl, hbr, hrw]
                rfl
              have hrun : ciStrEq ((c :: cs).takeWhile isWordChar) (tc :: ts) = false := by
                cases hEq : ciStrEq ((c :: cs).takeWhile isWordChar) (tc :: ts) with
                | false => rfl
                | true =>
                  exfalso
                  have hm2 := matchCI_complete hEq ((c :: cs).dropWhile isWordChar)
                  rw [List.takeWhile_append_dropWhile, hm] at hm2
                  have hpair := Option.some.inj hm2
                  have hr2 : rest2 = (c :: cs).dropWhile isWordChar :=
                    congrArg Prod.snd hpair
                  have hdrop := dropWhile_head_false (p := isWordChar) (c :: cs)
                  rw [← hr2] at hdrop
                  cases hh : rest2.head? with
                  | none => rw [hh] at hrw; simp [optWord] at hrw
                  | some x =>
                    rw [hh] at hrw
                    have hx := hdrop x (by rw [hh]; rfl)
                    rw [optWord_some, hx] at hrw
                    exact Bool.noConfusion hrw
              simp only [reSubAux_cons, hm, hcond, Bool.false_eq_true, if_false]
              exact tail_step hrun
            · -- match accepted: replace and continue after it
              have hoF : optWord rest2.head? = false := by
                cases ho : optWord rest2.head? with
                | false => rfl
                | true => exact absurd ho hrw
              have hrestF : ∀ x ∈ rest2.head?, isWordChar x = false := by
                intro x hx
                cases hh : rest2.head? with
                | none => rw [hh] at hx; simp at hx
                | some y =>
                  rw [hh] at hoF
                  rw [optWord_some] at hoF
                  rw [hh] at hx
                  simp at hx
                  subst hx
                  exact hoF
              have hcond : (isBoundary prev (some c) &&
                  isBoundary con.getLast? rest2.head?) = true := by
                rw [hbl, hbr, hoF]
                rfl
              have hta := takeWhile_all_append hconW hrestF
              have h1 : (c :: cs).takeWhile isWordChar = con := by
                rw [hs.1]; exact hta.1
              have h2 : (c :: cs).dropWhile isWordChar = rest2 := by
                rw [hs.1]; exact hta.2
              simp only [reSubAux_cons, hm, hcond, if_true]
              rw [specBlankAux_cons, if_pos hPc, h1, h2, if_pos hs.2]
              congr 1
              have hb := (ih rest2 (by omega)).2 con.getLast? [] rest2
                (by rw [hlast, optWord_some]; exact hlastW) (by simp) (by simp)
                hrestF g1 g2 (by omega) (by omega)
              simpa using hb
        · -- not a word character: copy it
          have hPc2 : isWordChar c = false := by
            cases hcc : isWordChar c with
            | false => rfl
            | true => exact absurd hcc hPc
          have hbl : isBoundary prev (some c) = false := by
            rw [isBoundary_eq, optWord_some, hprev, hPc2]
            rfl
          have tail :
              reSubAux tc ts g1 (some c) cs = specBlankAux (tc :: ts) g2 cs :=
            (ih cs (by omega)).1 (some c) (by rw [optWord_some]; exact hPc2) g1 g2
              (by omega) (by omega)
          cases hm : matchCI (tc :: ts) (c :: cs) with
          | none =>
            simp only [reSubAux_cons, hm]
            rw [specBlankAux_cons, if_neg (by simp [hPc2]), tail]
          | some p =>
            have hcond : (isBoundary prev (some c) &&
                isBoundary p.1.getLast? p.2.head?) = false := by
              rw [hbl]
              rfl
            simp only [reSubAux_cons, hm, hcond, Bool.false_eq_true, if_false]
            rw [specBlankAux_cons, if_neg (by simp [hPc2]), tail]
    · -- part (b): inside a word run, no match can start
      intro prev r rest hprev heq hr hrest f1 f2 hf1 hf2
      cases r with
      | cons d ds =>
        subst heq
        have hPd : isWordChar d = true := hr d (by simp)
        simp only [List.cons_append, List.length_cons] at hf1 hlen
        obtain ⟨g1, rfl⟩ : ∃ k, f1 = k + 1 := ⟨f1 - 1, by omega⟩
        have hbl : isBoundary prev (some d) = false := by
          rw [isBoundary_eq, optWord_some, hprev, hPd]
          rfl
        have tail :
            reSubAux tc ts g1 (some d) (ds ++ rest) =
              ds ++ specBlankAux (tc :: ts) f2 rest :=
          (ih (ds ++ rest) (by have := List.length_append ds rest; omega)).2
            (some d) ds rest (by rw [optWord_some]; exact hPd) rfl
            (fun x hx => hr x (by simp [hx])) hrest g1 f2
            (by have := List.length_append ds rest; omega) hf2
        cases hm : matchCI (tc :: ts) (d :: (ds ++ rest)) with
        | none =>
          simp only [List.cons_append, reSubAux_cons, hm]
          rw [tail]
        | some p =>
          have hcond : (isBoundary prev (some d) &&
              isBoundary p.1.getLast? p.2.head?) = false := by
            rw [hbl]
            rfl
          simp only [List.cons_append, reSubAux_cons, hm, hcond,
            Bool.false_eq_true, if_false]
          rw [tail]
      | nil =>
        have heq2 : input = rest := by simpa using heq
        subst heq2
        cases input with
        | nil =>
          rw [reSubAux_nil, specBlankAux_nil]
          rfl
        | cons e es =>
          have hPe : isWordChar e = false := hrest e (by simp)
          simp only [List.length_cons] at hf1 hf2 hlen
          obtain ⟨g1, rfl⟩ : ∃ k, f1 = k + 1 := ⟨f1 - 1, by omega⟩
          obtain ⟨g2, rfl⟩ : ∃ k, f2 = k + 1 := ⟨f2 - 1, by omega⟩
          have hm : matchCI (tc :: ts) (e :: es) = none := by
            cases hm2 : matchCI (tc :: ts) (e :: es) with
            | none => rfl
            | some p =>
              exfalso
              obtain ⟨con, rest2⟩ := p
              have hs := matchCI_sound hm2
              have hconW : ∀ x ∈ con, isWordChar x = true :=
                all_word_of_ciStrEq hs.2 hw
              cases hcon : con with
              | nil =>
                rw [hcon] at hs
                simpa [ciStrEq] using hs.2
              | cons a l =>
                rw [hcon] at hs
                have hea : e = a := by
                  have := congrArg List.head? hs.1
                  simpa using this
                have haW := hconW a (by rw [hcon]; simp)
                rw [← hea] at haW
                rw [haW] at hPe
                exact Bool.noConfusion hPe
          simp only [reSubAux_cons, hm]
          rw [specBlankAux_cons, if_neg (by simp [hPe]), List.nil_append]
          congr 1
          exact (ih es (by omega)).1 (some e) (by rw [optWord_some]; exact hPe) g1 g2
            (by omega) (by omega)


/-- C2: for every sentence and every non-empty selected word-form made of
word characters, `blank_word_in_sentence` replaces exactly the
case-insensitive whole-word occurrences of the word-form by six underscores
and leaves all other characters unchanged: it equals the token-based
specification `specBlank`, which rewrites precisely the maximal
word-character runs that match the word-form case-insensitively (so
occurrences that are substrings of a longer word are not replaced).  The
scenario (cloze field 1 of the `casa` card) is checked in the witness. -/
theorem blank_eq_specBlank (s t : String) (h1 : t.data ≠ [])
    (hw : ∀ c ∈ t.data, isWordChar c = true) :
    blank_word_in_sentence s t = specBlank s t := by
  cases ht : t.data with
  | nil => exact absurd ht h1
  | cons tc ts =>
    have hw2 : ∀ c ∈ tc :: ts, isWordChar c = true := by
      rw [← ht]; exact hw
    have hmain := (blank_main tc ts hw2 s.data.length s.data le_rfl).1 none rfl
      s.data.length s.data.length le_rfl le_rfl
    simp only [blank_word_in_sentence, specBlank, ht]
    rw [hmain]

/-- Witness for C2 at the spec's scenario: the hypotheses hold for the
word-form `casa`, the equivalence is applied there, and cloze field 1 of
the scenario card is `La ______ es muy grande.`. -/
theorem blank_eq_specBlank_witness :
    ("casa".data ≠ [] ∧ (∀ c ∈ "casa".data, isWordChar c = true)) ∧
    blank_word_in_sentence "La casa es muy grande." "casa" =
      specBlank "La casa es muy grande." "casa" ∧
    blank_word_in_sentence "La casa es muy grande." "casa" =
      "La ______ es muy grande." ∧
    (create_cloze_csv_row casaClozeCard)[0]? = some "La ______ es muy grande." :=
  ⟨⟨by decide, by decide⟩,
   blank_eq_specBlank "La casa es muy grande." "casa" (by decide) (by decide),
   by decide, by decide⟩

/-- C1: the media filename is the identical string
`<normalized word>-<first 8 chars of GUID>.<ext>` at every site: the path
media generation writes to (`Session.get_media_path`), the filenames
copied into Anki's media directory (`copy_media_files`,
`copy_cloze_media_files`), and the filenames placed inside the exported
`<img src=...>` and `[sound:...]` tags (`create_csv_row`,
`create_cloze_csv_row`), for both card kinds and both extensions;
normalization lowercases the word and replaces every space with an
underscore. -/
theorem claim_C1 (s : Session) (card : Card) (w : WordCard) (z : ClozeCard)
    (cfg : AnkiConfig) :
    (s.get_media_path card ".jpg" =
      s.output_directory ++ "/" ++ csvRowImageFilename card) ∧
    (s.get_media_path card ".mp3" =
      s.output_directory ++ "/" ++ csvRowAudioFilename card) ∧
    (csvRowImageFilename (Card.vocab w) = copyMediaImageFilename w) ∧
    (csvRowAudioFilename (Card.vocab w) = copyMediaAudioFilename w) ∧
    (csvRowImageFilename (Card.cloze z) = clozeRowImageFilename z) ∧
    (csvRowAudioFilename (Card.cloze z) = clozeRowAudioFilename z) ∧
    (clozeRowImageFilename z = copyClozeImageFilename z) ∧
    (clozeRowAudioFilename z = copyClozeAudioFilename z) ∧
    (csvRowImageFilename card =
      replaceSpaceWithUnderscore (pyLower card.word) ++ "-" ++ pyTake8 card.guid ++ ".jpg") ∧
    (csvRowAudioFilename card =
      replaceSpaceWithUnderscore (pyLower card.word) ++ "-" ++ pyTake8 card.guid ++ ".mp3") ∧
    ((create_csv_row card cfg)[1]? =
      some (if optTruthy card.image_path then
              "<img src=\"" ++ csvRowImageFilename card ++ "\">"
            else "")) ∧
    ((create_cloze_csv_row z)[1]? =
      some (if optTruthy z.image_path then
              "<img src=\"" ++ clozeRowImageFilename z ++ "\">"
            else "")) := by
  refine ⟨rfl, rfl, rfl, rfl, rfl, rfl, rfl, rfl, ?_, ?_, rfl, rfl⟩ <;>
    cases card <;> rfl

/-- C3: an export with at least one incomplete card of its type fails and
writes no CSV file; an export whose cards of its type are all complete
succeeds (the vocabulary export then always writes a file); an empty
cloze-card list is not an error and the cloze export succeeds without
writing anything. -/
theorem claim_C3 (s : Session) (cfg : AnkiConfig) (ccfg : ClozeAnkiConfig) :
    ((∃ c ∈ s.vocabulary_cards, c.is_complete = false) →
      generate_csv s cfg = (false, none)) ∧
    ((∀ c ∈ s.vocabulary_cards, c.is_complete = true) →
      generate_csv s cfg = (true, some (vocabCsvContent s cfg))) ∧
    ((∃ c ∈ s.cloze_cards, c.is_complete = false) →
      generate_cloze_csv s ccfg = (false, none)) ∧
    ((∀ c ∈ s.cloze_cards, c.is_complete = true) →
      (generate_cloze_csv s ccfg).1 = true) ∧
    (s.cloze_cards = [] → generate_cloze_csv s ccfg = (true, none)) := by
  refine ⟨?_, ?_, ?_, ?_, ?_⟩
  · rintro ⟨c, hc, hcomp⟩
    have hempty : (s.vocabulary_cards.filter (fun x => !x.is_complete)).isEmpty = false := by
      cases hEq : (s.vocabulary_cards.filter (fun x => !x.is_complete)).isEmpty with
      | false => rfl
      | true =>
        have h0 := List.isEmpty_iff.mp hEq
        have h1 := List.filter_eq_nil_iff.mp h0 c hc
        rw [hcomp] at h1
        simp at h1
    simp [generate_csv, hempty]
  · intro hall
    have hempty : (s.vocabulary_cards.filter (fun x => !x.is_complete)).isEmpty = true := by
      rw [List.isEmpty_iff]
      rw [List.filter_eq_nil_iff]
      intro a ha
      rw [hall a ha]
      simp
    simp [generate_csv, hempty]
  · rintro ⟨c, hc, hcomp⟩
    have hempty : (s.cloze_cards.filter (fun x => !x.is_complete)).isEmpty = false := by
      cases hEq : (s.cloze_cards.filter (fun x => !x.is_complete)).isEmpty with
      | false => rfl
      | true =>
        have h0 := List.isEmpty_iff.mp hEq
        have h1 := List.filter_eq_nil_iff.mp h0 c hc
        rw [hcomp] at h1
        simp at h1
    simp [generate_cloze_csv, hempty]
  · intro hall
    have hempty : (s.cloze_cards.filter (fun x => !x.is_complete)).isEmpty = true := by
      rw [List.isEmpty_iff]
      rw [List.filter_eq_nil_iff]
      intro a ha
      rw [hall a ha]
      simp
    by_cases hnil : s.cloze_cards.isEmpty = true
    · simp [generate_cloze_csv, hempty, hnil]
    · have : s.cloze_cards.isEmpty = false := by
        cases hEq : s.cloze_cards.isEmpty with
        | false => rfl
        | true => exact absurd hEq hnil
      simp [generate_cloze_csv, hempty, this]
  · intro hnil
    have h1 : s.cloze_cards.isEmpty = true := by rw [List.isEmpty_iff]; exact hnil
    have hempty : (s.cloze_cards.filter (fun x => !x.is_complete)).isEmpty = true := by
      rw [hnil]
      rfl
    simp [generate_cloze_csv, hempty, h1]

/-- Witness for C3 at the spec's scenario: a session with one incomplete
vocabulary card and zero cloze cards has a failing vocabulary export with
no file and a succeeding cloze export with no file; marking the card
complete makes the vocabulary export succeed. -/
theorem claim_C3_witness :
    generate_csv demoIncompleteSession {} = (false, none) ∧
    generate_cloze_csv demoIncompleteSession {} = (true, none) ∧
    generate_csv demoCompleteSession {} =
      (true, some (vocabCsvContent demoCompleteSession {})) :=
  ⟨(claim_C3 demoIncompleteSession {} {}).1 ⟨casaCard, by decide, by decide⟩,
   (claim_C3 demoIncompleteSession {} {}).2.2.2.2 rfl,
   (claim_C3 demoCompleteSession {} {}).2.1 (by decide)⟩

/-! ## Helper lemmas for the approve action -/

theorem card_mark_complete_is_complete (card : Card) :
    card.mark_complete.is_complete = true := by
  cases card <;> rfl

theorem attemptApprove_snd (fs : String → Bool) (card : Card) :
    (attemptApprove fs card).2 =
      (!approveClozeGuard card && !approveMissingImage fs card &&
        !approveMissingAudio fs card) := by
  simp only [attemptApprove]
  cases hg : approveClozeGuard card with
  | true => simp [hg]
  | false =>
    cases h1 : approveMissingImage fs card with
    | true => simp
    | false =>
      cases h2 : approveMissingAudio fs card with
      | true => simp
      | false => simp

theorem attemptApprove_fst_of_reject (fs : String → Bool) (card : Card)
    (h : (attemptApprove fs card).2 = false) :
    (attemptApprove fs card).1 = card := by
  simp only [attemptApprove] at *
  cases hg : approveClozeGuard card with
  | true => simp [hg]
  | false =>
    rw [hg] at h
    cases h1 : approveMissingImage fs card with
    | true => simp [h1]
    | false =>
      cases h2 : approveMissingAudio fs card with
      | true => simp [h1, h2]
      | false => simp [h1, h2] at h

theorem approveMissingImage_false_iff (fs : String → Bool) (card : Card) :
    approveMissingImage fs card = false ↔
      (optTruthy card.image_path = true ∧ fs (card.image_path.getD "") = true) := by
  simp only [approveMissingImage]
  cases optTruthy card.image_path <;> cases fs (card.image_path.getD "") <;> simp

theorem approveMissingAudio_false_iff (fs : String → Bool) (card : Card) :
    approveMissingAudio fs card = false ↔
      (optTruthy card.audio_path = true ∧ fs (card.audio_path.getD "") = true) := by
  simp only [approveMissingAudio]
  cases optTruthy card.audio_path <;> cases fs (card.audio_path.getD "") <;> simp

theorem approveClozeGuard_false_iff (card : Card) :
    approveClozeGuard card = false ↔
      (∀ z, card = Card.cloze z → optTruthy z.selected_sentence = true) := by
  cases card with
  | vocab w => simp [approveClozeGuard]
  | cloze z =>
    simp only [approveClozeGuard]
    constructor
    · intro h y hy
      cases hy
      cases hz : optTruthy z.selected_sentence with
      | true => rfl
      | false => rw [hz] at h; exact Bool.noConfusion h
    · intro h
      rw [h z rfl]
      rfl

/-- C4: the single-card review loop grants approval — invoking
`mark_complete`, which sets `is_complete` — exactly when the image path and
audio path are both set and resolve to existing files and, for cloze
cards, a sentence has been selected; a rejected approve attempt leaves the
card unchanged, so an incomplete card stays incomplete. -/
theorem claim_C4 (fs : String → Bool) (card : Card) :
    ((attemptApprove fs card).2 = true ↔
      (optTruthy card.image_path = true ∧ fs (card.image_path.getD "") = true ∧
       optTruthy card.audio_path = true ∧ fs (card.audio_path.getD "") = true ∧
       (∀ z, card = Card.cloze z → optTruthy z.selected_sentence = true))) ∧
    ((attemptApprove fs card).2 = false → (attemptApprove fs card).1 = card) ∧
    ((attemptApprove fs card).2 = true →
      (attemptApprove fs card).1.is_complete = true) := by
  refine ⟨?_, attemptApprove_fst_of_reject fs card, ?_⟩
  · rw [attemptApprove_snd]
    constructor
    · intro h
      simp only [Bool.and_eq_true, Bool.not_eq_true'] at h
      obtain ⟨⟨hg, hi⟩, ha⟩ := h
      obtain ⟨hi1, hi2⟩ := (approveMissingImage_false_iff fs card).mp hi
      obtain ⟨ha1, ha2⟩ := (approveMissingAudio_false_iff fs card).mp ha
      exact ⟨hi1, hi2, ha1, ha2, (approveClozeGuard_false_iff card).mp hg⟩
    · rintro ⟨hi1, hi2, ha1, ha2, hz⟩
      have hg := (approveClozeGuard_false_iff card).mpr hz
      have hi := (approveMissingImage_false_iff fs card).mpr ⟨hi1, hi2⟩
      have ha := (approveMissingAudio_false_iff fs card).mpr ⟨ha1, ha2⟩
      rw [hg, hi, ha]
      rfl
  · intro h
    rw [attemptApprove_snd] at h
    simp only [Bool.and_eq_true, Bool.not_eq_true'] at h
    obtain ⟨⟨hg, hi⟩, ha⟩ := h
    simp only [attemptApprove, hg, hi, ha]
    simpa using card_mark_complete_is_complete card

/-- Witness for C4: a cloze card with a selected sentence and both media
files existing is approved and becomes complete; with a file system where
the files do not exist the same card is rejected and left unchanged. -/
theorem claim_C4_witness :
    (attemptApprove (fun p => p == "i.jpg" || p == "a.mp3")
      (Card.cloze demoApproveCard)).2 = true ∧
    (attemptApprove (fun p => p == "i.jpg" || p == "a.mp3")
      (Card.cloze demoApproveCard)).1.is_complete = true ∧
    (attemptApprove (fun _ => false) (Card.cloze demoApproveCard)).2 = false ∧
    (attemptApprove (fun _ => false) (Card.cloze demoApproveCard)).1 =
      Card.cloze demoApproveCard := by
  have h := claim_C4 (fun p => p == "i.jpg" || p == "a.mp3") (Card.cloze demoApproveCard)
  have hsucc : (attemptApprove (fun p => p == "i.jpg" || p == "a.mp3")
      (Card.cloze demoApproveCard)).2 = true :=
    h.1.mpr ⟨by decide, by decide, by decide, by decide, by
      intro z hz
      cases hz
      decide⟩
  have h2 := claim_C4 (fun _ => false) (Card.cloze demoApproveCard)
  have hfail : (attemptApprove (fun _ => false) (Card.cloze demoApproveCard)).2 = false := by
    cases hEq : (attemptApprove (fun _ => false) (Card.cloze demoApproveCard)).2 with
    | false => rfl
    | true =>
      have := h2.1.mp hEq
      simp at this
  exact ⟨hsucc, h.2.2 hsucc, hfail, h2.2.1 hfail⟩

/-- Counterexample to C5 as stated: for a card whose part of speech is the
empty string (absent from the table, title-cased fallback also empty), with
no gender and no personal context, every piece of field 3 is empty, so the
claim's final clause predicts the empty string — but the code's parts list
still holds the (empty) part-of-speech translation, so the field is the
single character `.`. -/
theorem claim_C5_counterexample :
    create_field_3_content (Card.vocab emptyPosCard) = "." ∧
    create_field_3_content (Card.vocab emptyPosCard) ≠ "" := by
  constructor
  · decide
  · decide

/-- C5 (amended): field 3 is the Spanish part-of-speech translation,
followed by the Spanish gender (nouns with a gender) or the Spanish verb
type (verbs with a verb type) separated by one space, then optionally
`. ` plus the personal context, and the whole string is always terminated
with a period — the field is never the empty string, because the parts
list always contains the part-of-speech translation (when every piece is
empty the field is `.`).  Part-of-speech keys missing from the table fall
back to the English value title-cased, and gender/verb-type keys missing
fall back verbatim. -/
theorem claim_C5_amended (card : Card) (pos g v : String) (hg : g ≠ "") (hv : v ≠ "") :
    (create_field_3_content card =
      get_spanish_part_of_speech card.part_of_speech ++
      (if card.part_of_speech == "noun" && optTruthy card.gender then
        " " ++ get_spanish_gender card.gender
       else if card.part_of_speech == "verb" && optTruthy card.verb_type then
        " " ++ get_spanish_verb_type card.verb_type
       else "") ++
      (if optTruthy card.personal_context then
        ". " ++ card.personal_context.getD ""
       else "") ++ ".") ∧
    (SPANISH_PARTS_OF_SPEECH.find? (fun p => p.1 == pos) = none →
      get_spanish_part_of_speech pos = pyTitle pos) ∧
    (SPANISH_GENDER.find? (fun p => p.1 == g) = none →
      get_spanish_gender (some g) = g) ∧
    (SPANISH_VERB_TYPES.find? (fun p => p.1 == v) = none →
      get_spanish_verb_type (some v) = v) := by
  refine ⟨?_, ?_, ?_, ?_⟩
  · simp only [create_field_3_content]
    by_cases h1 : (card.part_of_speech == "noun" && optTruthy card.gender) = true <;>
      by_cases h2 : (card.part_of_speech == "verb" && optTruthy card.verb_type) = true <;>
      by_cases h3 : optTruthy card.personal_context = true <;>
      simp [h1, h2, h3, joinSep, String.append_assoc]
  · intro h
    simp [get_spanish_part_of_speech, tableGet, h]
  · intro h
    have hgb : (g == "") = false := by
      cases hEq : g == "" with
      | false => rfl
      | true => exact absurd (by simpa using hEq) hg
    simp [get_spanish_gender, tableGet, h, optTruthy, hgb]
  · intro h
    have hvb : (v == "") = false := by
      cases hEq : v == "" with
      | false => rfl
      | true => exact absurd (by simpa using hEq) hv
    simp [get_spanish_verb_type, tableGet, h, optTruthy, hvb]

/-- Witness for C5 at the spec's scenario: the `casa` card's field 3 is
`Sustantivo femenino. Mi hogar de la infancia.`, and unknown keys fall back
as claimed. -/
theorem claim_C5_witness :
    create_field_3_content (Card.vocab casaCard) =
      "Sustantivo femenino. Mi hogar de la infancia." ∧
    get_spanish_part_of_speech "gerund phrase" = "Gerund Phrase" ∧
    get_spanish_gender (some "neuter") = "neuter" ∧
    get_spanish_verb_type (some "modal") = "modal" := by
  have h := claim_C5_amended (Card.vocab casaCard) "gerund phrase" "neuter" "modal"
    (by decide) (by decide)
  refine ⟨?_, ?_, h.2.2.1 (by decide), h.2.2.2 (by decide)⟩
  · rw [h.1]
    decide
  · rw [h.2.1 (by decide)]
    decide

/-! ## Truthiness bridges -/

theorem if_optTruthy {α : Type} (o : Option String) (a b : α) :
    (if optTruthy o then a else b) = (if o.getD "" ≠ "" then a else b) := by
  cases o with
  | none => simp [optTruthy]
  | some s =>
    by_cases hs : s = "" <;> simp [optTruthy, hs]

theorem if_bne {α : Type} (x : String) (a b : α) :
    (if !(x == "") then a else b) = (if x ≠ "" then a else b) := by
  by_cases hs : x = "" <;> simp [hs]

/-- C6: for every cloze card, export field 6 (extra info) is the space-join,
in this order, of the `[sound:FILENAME]` tag when an audio path is set,
then the conjugated-form IPA when present and otherwise the card's base
IPA, then the personal context when present; absent pieces are omitted.
The field is a total function of the card (defined for every cloze card,
in particular every one the exporter accepts). -/
theorem claim_C6 (card : ClozeCard) :
    (create_cloze_csv_row card)[5]? =
      some (joinSep " "
        ((if card.audio_path.getD "" ≠ "" then
            ["[sound:" ++ clozeRowAudioFilename card ++ "]"]
          else []) ++
         (if card.selected_word_ipa.getD "" ≠ "" then [card.selected_word_ipa.getD ""]
          else if card.ipa ≠ "" then [card.ipa]
          else []) ++
         (if card.personal_context.getD "" ≠ "" then [card.personal_context.getD ""]
          else []))) := by
  simp only [create_cloze_csv_row, if_optTruthy, if_bne]
  rfl

/-- C7: every vocabulary data row has exactly 6 fields, in the order word,
picture, combined descriptor, pronunciation, test-spelling flag, GUID;
every cloze data row has exactly 10 fields, of which fields 7, 8 and 9
(indices 6, 7, 8) are always the empty string. -/
theorem claim_C7 (card : Card) (cfg : AnkiConfig) (z : ClozeCard) :
    (create_csv_row card cfg).length = 6 ∧
    (create_csv_row card cfg)[0]? = some card.word ∧
    (create_csv_row card cfg)[1]? =
      some (if optTruthy card.image_path then
              "<img src=\"" ++ csvRowImageFilename card ++ "\">"
            else "") ∧
    (create_csv_row card cfg)[2]? = some (create_field_3_content card) ∧
    (create_csv_row card cfg)[3]? =
      some (joinSep " "
        ((if optTruthy card.audio_path then
            ["[sound:" ++ csvRowAudioFilename card ++ "]"]
          else []) ++
         (if optTruthy card.selected_word_ipa then [card.selected_word_ipa.getD ""]
          else if !(card.ipa == "") then [card.ipa]
          else []))) ∧
    (create_csv_row card cfg)[4]? = some (if cfg.test_spelling then "y" else "") ∧
    (create_csv_row card cfg)[5]? = some card.guid ∧
    (create_cloze_csv_row z).length = 10 ∧
    (create_cloze_csv_row z)[6]? = some "" ∧
    (create_cloze_csv_row z)[7]? = some "" ∧
    (create_cloze_csv_row z)[8]? = some "" :=
  ⟨rfl, rfl, rfl, rfl, rfl, rfl, rfl, rfl, rfl, rfl, rfl⟩

/-- C8: for a fixed GUID, `regenerate_image` and `regenerate_audio` resolve
to the same destination path as the original generation
(`Session.get_media_path` with the same extension); on success they
overwrite the card's path field and return `True`; when the underlying
generation raises, they leave the card — in particular its
`image_path`/`audio_path` field — unchanged and return `False`; and when
both a prior extra prompt and new additional context are present, the
image prompt joins them with `. `. -/
theorem claim_C8 (s : Session) (card : Card) (r orig add : String) :
    (regenerateImageTargetPath s card = generateMediaImagePath s card) ∧
    (regenerateAudioTargetPath s card = generateMediaAudioPath s card) ∧
    (regenerate_image s card GenOutcome.raised = (card, false)) ∧
    (regenerate_audio s card GenOutcome.raised = (card, false)) ∧
    (r ≠ "" → regenerate_image s card (GenOutcome.ok r) =
      (card.withImagePath (regenerateImageTargetPath s card), true)) ∧
    (r ≠ "" → regenerate_audio s card (GenOutcome.ok r) =
      (card.withAudioPath r, true)) ∧
    (card.extra_image_prompt = some orig → orig ≠ "" → add ≠ "" →
      combined_extra_prompt card (some add) = some (orig ++ ". " ++ add)) := by
  refine ⟨rfl, rfl, rfl, rfl, ?_, ?_, ?_⟩
  · intro h
    simp [regenerate_image, h]
  · intro h
    simp [regenerate_audio, h]
  · intro ho h1 h2
    simp [combined_extra_prompt, optTruthy, ho, h1, h2]

/-- Witness for C8: a successful image regeneration overwrites the path
field with the recomputed target, a raised generation leaves the card
unchanged, and the prior prompt and new context are joined with `. `. -/
theorem claim_C8_witness :
    regenerate_image demoIncompleteSession (Card.vocab promptCard)
      (GenOutcome.ok "out.jpg") =
      ((Card.vocab promptCard).withImagePath
        (regenerateImageTargetPath demoIncompleteSession (Card.vocab promptCard)),
       true) ∧
    regenerate_audio demoIncompleteSession (Card.vocab promptCard)
      GenOutcome.raised = (Card.vocab promptCard, false) ∧
    combined_extra_prompt (Card.vocab promptCard) (some "extra") =
      some "orig. extra" := by
  have h := claim_C8 demoIncompleteSession (Card.vocab promptCard) "out.jpg" "orig" "extra"
  exact ⟨h.2.2.2.2.1 (by decide), h.2.2.2.1,
    h.2.2.2.2.2.2 rfl (by decide) (by decide)⟩

/-- C9: a session's `cards` view is the vocabulary list followed by the
cloze list; `add_card` appends a `WordCard` to the vocabulary list, a
`ClozeCard` to the cloze list, and silently ignores any other value; and
`is_complete` holds exactly when `incomplete_cards` is empty, so a session
with no cards is complete. -/
theorem claim_C9 (s : Session) (w : WordCard) (z : ClozeCard) :
    (s.cards = s.vocabulary_cards.map Card.vocab ++ s.cloze_cards.map Card.cloze) ∧
    (s.add_card (PyObj.card (Card.vocab w)) =
      { s with vocabulary_cards := s.vocabulary_cards ++ [w] }) ∧
    (s.add_card (PyObj.card (Card.cloze z)) =
      { s with cloze_cards := s.cloze_cards ++ [z] }) ∧
    (s.add_card PyObj.other = s) ∧
    (s.is_complete = true ↔ s.incomplete_cards = []) ∧
    (s.cards = [] → s.is_complete = true) := by
  refine ⟨rfl, rfl, rfl, rfl, ?_, ?_⟩
  · simp only [Session.is_complete, Session.incomplete_cards]
    rw [List.all_eq_true, List.filter_eq_nil_iff]
    constructor
    · intro h c hc
      rw [h c hc]
      simp
    · intro h c hc
      have := h c hc
      simpa using this
  · intro h
    simp [Session.is_complete, h]

/-- Witness for C9: adding a non-card value leaves the scenario session
unchanged, and the default (cardless) session is complete. -/
theorem claim_C9_witness :
    demoIncompleteSession.add_card PyObj.other = demoIncompleteSession ∧
    ({} : Session).is_complete = true ∧
    (({} : Session).is_complete = true ↔ ({} : Session).incomplete_cards = []) :=
  ⟨(claim_C9 demoIncompleteSession casaCard emptyDictClozeCard).2.2.2.1,
   (claim_C9 {} casaCard emptyDictClozeCard).2.2.2.2.2 rfl,
   (claim_C9 {} casaCard emptyDictClozeCard).2.2.2.2.1⟩

/-- C10: every `ClozeCard` accessor backed by the `word_analysis` dict is a
total function of the card (no missing-key error is possible), and on a
dict without the corresponding key, `ipa` and `part_of_speech` return the
empty string, `gender` and `verb_type` return `None`, and
`example_sentences` returns the empty list. -/
theorem claim_C10 (c : ClozeCard) :
    (c.word_analysis.ipa = none → c.ipa = "") ∧
    (c.word_analysis.part_of_speech = none → c.part_of_speech = "") ∧
    (c.word_analysis.gender = none → c.gender = none) ∧
    (c.word_analysis.verb_type = none → c.verb_type = none) ∧
    (c.word_analysis.example_sentences = none → c.example_sentences = []) := by
  refine ⟨?_, ?_, ?_, ?_, ?_⟩ <;> intro h <;>
    simp [ClozeCard.ipa, ClozeCard.part_of_speech, ClozeCard.gender,
      ClozeCard.verb_type, ClozeCard.example_sentences, h]

/-- Witness for C10 on a cloze card with an empty `word_analysis` dict. -/
theorem claim_C10_witness :
    emptyDictClozeCard.ipa = "" ∧
    emptyDictClozeCard.part_of_speech = "" ∧
    emptyDictClozeCard.gender = none ∧
    emptyDictClozeCard.verb_type = none ∧
    emptyDictClozeCard.example_sentences = [] :=
  ⟨(claim_C10 emptyDictClozeCard).1 rfl,
   (claim_C10 emptyDictClozeCard).2.1 rfl,
   (claim_C10 emptyDictClozeCard).2.2.1 rfl,
   (claim_C10 emptyDictClozeCard).2.2.2.1 rfl,
   (claim_C10 emptyDictClozeCard).2.2.2.2 rfl⟩

end Fluentpy
